import Mathlib

/-!
Shallow embedding of the tidit Obsidian plugin's insertion-position decision
engine (`src/utils.ts` / `src/main.ts`) together with the pieces of the
surrounding glue the specification talks about: the moment-style timestamp
formatter and strict parser, the settings `onChange` handlers, and the rate
guard.  JavaScript strings are modelled as Lean `String` (lists of
characters); all functions are executable.
-/

namespace Tidit

/-! ## Character classes used by the JavaScript regexes and `parseInt` -/

/-- The characters matched by JavaScript's regex class `\s`
(whitespace: space, tab, line and form feeds, carriage return, vertical tab,
NBSP, BOM). -/
def isJsSpace (c : Char) : Bool :=
  c = ' ' || c = '\t' || c = '\n' || c = '\r' ||
  c = Char.ofNat 11 || c = Char.ofNat 12 ||
  c = Char.ofNat 160 || c = Char.ofNat 65279

/-- The characters matched by JavaScript's regex class `\d` (ASCII digits). -/
def isJsDigit (c : Char) : Bool :=
  '0' ≤ c && c ≤ '9'

/-- Numeric value of an ASCII digit character. -/
def digitVal (c : Char) : Nat := c.toNat - 48

/-! ## The list regexes of `utils.ts`

`LIST_BULLET_REGEX = /^\s*([-*+]|\d+[\.\)])\s+/` and
`LIST_TASK_REGEX = /^\s*([-*+]|\d+[\.\)])\s+\[[^\]]*\]\s/`.
Both regexes are anchored and deterministic (greedy matching never needs to
backtrack: the marker characters are not whitespace, `[.)]` never matches a
digit, `[` is not whitespace, and `[^\]]*` stops exactly at the first `]`),
so they are modelled as direct functional matchers.  `markerLen` consumes
the `([-*+]|\d+[\.\)])` alternative and returns the number of characters it
matched. -/

def markerLen (l : List Char) : Option Nat :=
  match l with
  | [] => none
  | c :: _ =>
    if c = '-' || c = '*' || c = '+' then some 1
    else
      let ds := l.takeWhile isJsDigit
      if ds.length = 0 then none
      else
        match l.drop ds.length with
        | d :: _ => if d = '.' || d = ')' then some (ds.length + 1) else none
        | [] => none

/-- Length of the full match of `LIST_BULLET_REGEX` against the start of the
line (`none` when the regex does not match).  Since the regex is anchored,
`match.index` is `0` and `match[0].length` is exactly this value. -/
def bulletMatchLen (l : List Char) : Option Nat :=
  let ws := l.takeWhile isJsSpace
  let r1 := l.drop ws.length
  match markerLen r1 with
  | none => none
  | some m =>
    let r2 := r1.drop m
    let ws2 := r2.takeWhile isJsSpace
    if ws2.length = 0 then none
    else some (ws.length + m + ws2.length)

/-- Whether `LIST_TASK_REGEX` matches the start of the line: after the bullet
part it additionally requires `\[[^\]]*\]\s`. -/
def taskMatchB (l : List Char) : Bool :=
  let ws := l.takeWhile isJsSpace
  let r1 := l.drop ws.length
  match markerLen r1 with
  | none => false
  | some m =>
    let r2 := r1.drop m
    let ws2 := r2.takeWhile isJsSpace
    if ws2.length = 0 then false
    else
      match r2.drop ws2.length with
      | c :: r3 =>
        if c = '[' then
          let inner := r3.takeWhile (fun d => !(d = ']'))
          match r3.drop inner.length with
          | d :: r4 =>
            if d = ']' then
              match r4 with
              | e :: _ => isJsSpace e
              | [] => false
            else false
          | [] => false
        else false
      | [] => false

/-- Model of `isCursorInListLine` (`utils.ts`): `LIST_BULLET_REGEX.test(line)`. -/
def isCursorInListLine (line : String) : Bool :=
  (bulletMatchLen line.data).isSome

/-- Model of `isListLineTask` (`utils.ts`): `LIST_TASK_REGEX.test(line)`. -/
def isListLineTask (line : String) : Bool :=
  taskMatchB line.data

/-- Model of `getInsertPositionAfterBullet` (`utils.ts`): the position after the list
bullet (`match.index + match[0].length`, and `match.index = 0` because the
regex is anchored), or `-1` if the line is not a list line. -/
def getInsertPositionAfterBullet (line : String) : Int :=
  match bulletMatchLen line.data with
  | some n => (n : Int)
  | none => -1

/-! ## Code-fence detection (`main.ts`) -/

/-- Model of `isCodeBlockStartEnd` (`main.ts`):
`line.startsWith("\x60") || line.endsWith("\x60\x60\x60")`. -/
def isCodeBlockStartEnd (line : String) : Bool :=
  (match line.data with
   | c :: _ => c = Char.ofNat 96
   | [] => false) ||
  List.isSuffixOf (List.replicate 3 (Char.ofNat 96)) line.data

/-! ## JavaScript `String.prototype.substring`

Clamps both arguments into `[0, length]` and swaps them when the first is
larger than the second. -/

def jsSubstring (s : String) (a b : Int) : String :=
  let len : Int := (s.data.length : Int)
  let a' : Nat := (max 0 (min a len)).toNat
  let b' : Nat := (max 0 (min b len)).toNat
  let lo := min a' b'
  let hi := max a' b'
  String.mk ((s.data.drop lo).take (hi - lo))

/-! ## Moment model

The plugin calls the moment library through exactly three operations:
`moment().format(pattern)`, `moment(text, pattern, true).isValid()` (strict
parse) and `moment().diff(other, "seconds")`.  A format pattern is modelled
as a list of tokens: the directives the plugin's default pattern
`"YYYY-MM-DD HH:mm:ssZ"` uses (all fixed-width, zero-padded in moment's
output) plus bracketed literal text (`[...]` in a moment pattern string).
Unrecognized characters in a moment pattern behave exactly like literal
text, so `lit` also covers "invalid" patterns: moment never throws on any
pattern string, it returns an invalid moment instead. -/

inductive MToken where
  | lit : String → MToken
  | yearTok : MToken
  | monthTok : MToken
  | dayTok : MToken
  | hourTok : MToken
  | minuteTok : MToken
  | secondTok : MToken
  | offsetTok : MToken
deriving DecidableEq

/-- A calendar date-time with UTC-offset, the data moment formats. -/
structure MDateTime where
  year : Nat
  month : Nat
  day : Nat
  hour : Nat
  minute : Nat
  second : Nat
  offNeg : Bool
  offH : Nat
  offM : Nat
deriving DecidableEq

/-- Fields in range and four-digit year (the plugin's formats are all
zero-padded fixed-width, as in moment's output). -/
def validDateTime (t : MDateTime) : Bool :=
  t.year ≤ 9999 && 1 ≤ t.month && t.month ≤ 12 && 1 ≤ t.day && t.day ≤ 31 &&
  t.hour ≤ 23 && t.minute ≤ 59 && t.second ≤ 59 && t.offH ≤ 23 && t.offM ≤ 59

/-- Two-digit zero-padded decimal rendering. -/
def pad2 (n : Nat) : List Char :=
  [Nat.digitChar (n / 10 % 10), Nat.digitChar (n % 10)]

/-- Four-digit zero-padded decimal rendering. -/
def pad4 (n : Nat) : List Char :=
  [Nat.digitChar (n / 1000 % 10), Nat.digitChar (n / 100 % 10),
   Nat.digitChar (n / 10 % 10), Nat.digitChar (n % 10)]

/-- Output of one format directive, as moment renders it (`Z` renders as a
sign followed by `HH:mm`). -/
def formatToken (t : MDateTime) : MToken → List Char
  | .lit s => s.data
  | .yearTok => pad4 t.year
  | .monthTok => pad2 t.month
  | .dayTok => pad2 t.day
  | .hourTok => pad2 t.hour
  | .minuteTok => pad2 t.minute
  | .secondTok => pad2 t.second
  | .offsetTok => (if t.offNeg then '-' else '+') :: (pad2 t.offH ++ ':' :: pad2 t.offM)

/-- Rendering `moment(t).format(f)` as a character list. -/
def momentFormat (t : MDateTime) (f : List MToken) : List Char :=
  f.foldr (fun tok acc => formatToken t tok ++ acc) []

/-- The unit values accumulated while parsing.  Moment defaults units that
the pattern does not mention; the defaults are valid field values (midnight
of a valid date), which is all the code observes through `isValid()`. -/
structure ParseAcc where
  year : Nat
  month : Nat
  day : Nat
  hour : Nat
  minute : Nat
  second : Nat
  offNeg : Bool
  offH : Nat
  offM : Nat
deriving DecidableEq

def defaultAcc : ParseAcc := ⟨2001, 1, 1, 0, 0, 0, false, 0, 0⟩

/-- Read one ASCII digit. -/
def readDigit (c : Char) : Option Nat :=
  if isJsDigit c then some (digitVal c) else none

/-- Read exactly two digits (strict-mode two-digit directives). -/
def read2 (l : List Char) : Option (Nat × List Char) :=
  match l with
  | a :: b :: rest =>
    match readDigit a, readDigit b with
    | some x, some y => some (10 * x + y, rest)
    | _, _ => none
  | _ => none

/-- Read exactly four digits (strict-mode `YYYY`). -/
def read4 (l : List Char) : Option (Nat × List Char) :=
  match read2 l with
  | some (x, r) =>
    match read2 r with
    | some (y, r2) => some (100 * x + y, r2)
    | none => none
  | none => none

/-- Strict parse of a token sequence against the input; strict mode requires
every literal and directive to match exactly and the whole input to be
consumed.  `Z` accepts a sign, two digits, an optional colon and two more
digits, as moment's offset matcher does. -/
def parseTokens : List MToken → List Char → ParseAcc → Option ParseAcc
  | [], [], acc => some acc
  | [], _ :: _, _ => none
  | .lit s :: ts, l, acc =>
    if List.isPrefixOf s.data l then parseTokens ts (l.drop s.data.length) acc
    else none
  | .yearTok :: ts, l, acc =>
    match read4 l with
    | some (n, r) => parseTokens ts r { acc with year := n }
    | none => none
  | .monthTok :: ts, l, acc =>
    match read2 l with
    | some (n, r) => parseTokens ts r { acc with month := n }
    | none => none
  | .dayTok :: ts, l, acc =>
    match read2 l with
    | some (n, r) => parseTokens ts r { acc with day := n }
    | none => none
  | .hourTok :: ts, l, acc =>
    match read2 l with
    | some (n, r) => parseTokens ts r { acc with hour := n }
    | none => none
  | .minuteTok :: ts, l, acc =>
    match read2 l with
    | some (n, r) => parseTokens ts r { acc with minute := n }
    | none => none
  | .secondTok :: ts, l, acc =>
    match read2 l with
    | some (n, r) => parseTokens ts r { acc with second := n }
    | none => none
  | .offsetTok :: ts, l, acc =>
    match l with
    | c :: r =>
      if c = '+' || c = '-' then
        match read2 r with
        | some (h, r2) =>
          let r3 := match r2 with
                    | d :: rr => if d = ':' then rr else r2
                    | [] => r2
          match read2 r3 with
          | some (mi, r4) =>
            parseTokens ts r4 { acc with offNeg := c = '-', offH := h, offM := mi }
          | none => none
        | none => none
      else none
    | [] => none

def isLeapYear (y : Nat) : Bool :=
  (y % 4 = 0 && !(y % 100 = 0)) || y % 400 = 0

def daysInMonth (y m : Nat) : Nat :=
  if m = 2 then (if isLeapYear y then 29 else 28)
  else if m = 4 || m = 6 || m = 9 || m = 11 then 30
  else 31

/-- Moment's overflow validation of the parsed units. -/
def validAcc (a : ParseAcc) : Bool :=
  1 ≤ a.month && a.month ≤ 12 && 1 ≤ a.day && a.day ≤ daysInMonth a.year a.month &&
  a.hour ≤ 23 && a.minute ≤ 59 && a.second ≤ 59

/-- Model of `moment(s, f, true).isValid()`: strict parse followed by overflow
validation.  Total — the real library never throws here, it returns an
invalid moment object instead. -/
def momentParseStrictValid (s : String) (f : List MToken) : Bool :=
  match parseTokens f s.data defaultAcc with
  | some acc => validAcc acc
  | none => false

/-! ## The insertion-offset resolver (`getInsertPositionInLineFromText`,
`utils.ts`)

The JavaScript early-return structure
`if (bullet) { if (add) pos = afterBullet; else return -1; }`
is rendered as a guard for the early return followed by the `let`.  The
`now` argument stands for the wall-clock `moment()` used only to measure
`moment().format(timestampFormat).length`; the format pattern is a token
list (see `MToken`).  The `try`/`catch` around the strict parse has no
counterpart because the modelled moment operations are total (the library
returns an invalid moment rather than throwing). -/

def getInsertPositionInLineFromText (lineText : String)
    (addTimestampToListLines : Bool) (timestampFormat : List MToken)
    (now : MDateTime) (isCodeBlockStartEnd : String → Bool) : Int :=
  if isListLineTask lineText then -1
  else if isCursorInListLine lineText && !addTimestampToListLines then -1
  else
    let insertPosition : Int :=
      if isCursorInListLine lineText then getInsertPositionAfterBullet lineText
      else 0
    if isCodeBlockStartEnd lineText then -1
    else
      let formattedTimestampLength : Int := ((momentFormat now timestampFormat).length : Int)
      if momentParseStrictValid
          (jsSubstring lineText insertPosition (insertPosition + formattedTimestampLength))
          timestampFormat
      then -1
      else insertPosition

/-! ## Timestamp formatting and insertion (`main.ts`) -/

/-- Model of `getFormattedTimestamp` (`main.ts`), after timezone resolution: the
timestamp rendered from the already-zone-adjusted instant `t`, suffixed with
a newline or a single space per configuration. -/
def getFormattedTimestamp (t : MDateTime) (fmt : List MToken)
    (insertNewLineAfterTimestamp : Bool) : String :=
  String.mk (momentFormat t fmt ++ (if insertNewLineAfterTimestamp then ['\n'] else [' ']))

/-- Model of the editor call replaceRange at a (line, character) position, restricted to one line:
insertion of `t` into `s` at character position `p`. -/
def insertAt (s : String) (p : Nat) (t : String) : String :=
  String.mk (s.data.take p ++ t.data ++ s.data.drop p)

/-! ## Settings handlers (`TiditSettingTab.display`, `main.ts`)

JavaScript numbers that may be `NaN` are modelled as `Option Int`
(`none` = `NaN`). -/

/-- JavaScript `Number.parseInt` (radix 10): skip leading whitespace, an
optional sign, then a maximal run of digits; `NaN` (`none`) when no digit
follows.  Trailing characters are ignored. -/
def jsParseInt (s : String) : Option Int :=
  let l := s.data.dropWhile isJsSpace
  let core : List Char → Option Nat := fun l2 =>
    let ds := l2.takeWhile isJsDigit
    if ds.length = 0 then none
    else some (ds.foldl (fun acc c => 10 * acc + digitVal c) 0)
  match l with
  | '-' :: rest => (core rest).map (fun n => -(n : Int))
  | '+' :: rest => (core rest).map (fun n => (n : Int))
  | rest => (core rest).map (fun n => (n : Int))

/-- The "Add timestamp after delay" `onChange` handler:
`v = Math.max(Math.min(Number.parseInt(value), 1234))` and the result is
stored unconditionally.  `Math.min(NaN, 1234) = NaN` and a one-argument
`Math.max` returns its argument, so a non-numeric input stores `NaN`
(modelled `none`) and there is no lower clamp. -/
def addAfterDelayOnChange (value : String) (_prev : Option Int) : Option Int :=
  match jsParseInt value with
  | none => none
  | some n => some (min n 1234)

/-- The "Manual Timezone Offset" `onChange` handler: `parseInt(value)`,
stored only when not `NaN`, otherwise the previous value is retained. -/
def timezoneOffsetOnChange (value : String) (prev : Int) : Int :=
  match jsParseInt value with
  | none => prev
  | some n => n

/-! ## Rate guard (`onload` keyup handler, `main.ts`) -/

/-- Model of `now.diff(last, "seconds")`: millisecond difference divided by 1000,
truncated toward zero. -/
def diffSeconds (nowMs lastMs : Int) : Int :=
  Int.tdiv (nowMs - lastMs) 1000

/-- The guard in the keyup handler: the insertion attempt proceeds unless
`now.diff(last, "seconds") < addAfterDelay`. -/
def rateGuardProceeds (nowMs lastMs delaySeconds : Int) : Bool :=
  if diffSeconds nowMs lastMs < delaySeconds then false else true

/-! ## Concrete instances used by the examples -/

/-- The default pattern `"YYYY-MM-DD HH:mm:ssZ"` as a token list. -/
def defaultTimestampFormat : List MToken :=
  [.yearTok, .lit "-", .monthTok, .lit "-", .dayTok, .lit " ",
   .hourTok, .lit ":", .minuteTok, .lit ":", .secondTok, .offsetTok]

/-- The reference instant of the spec's examples: 2025-08-31 12:00:00+00:00. -/
def sampleNow : MDateTime := ⟨2025, 8, 31, 12, 0, 0, false, 0, 0⟩

end Tidit

namespace Tidit

/-! ## Helper lemmas -/

theorem data_mk (l : List Char) : (String.mk l).data = l := rfl

theorem markerLen_le {l : List Char} {m : Nat} (h : markerLen l = some m) :
    m ≤ l.length := by
  cases l with
  | nil => simp [markerLen] at h
  | cons c rest =>
    simp only [markerLen] at h
    split at h
    · cases h
      simp
    · split at h
      · cases h
      · split at h
        next d tail heq =>
          split at h
          · cases h
            have h1 : ((c :: rest).drop (((c :: rest).takeWhile isJsDigit).length)).length =
                (c :: rest).length - ((c :: rest).takeWhile isJsDigit).length :=
              List.length_drop _ _
            rw [heq] at h1
            have h2 : ((c :: rest).takeWhile isJsDigit).length ≤ (c :: rest).length :=
              (List.takeWhile_prefix isJsDigit).length_le
            simp only [List.length_cons] at h1 h2 ⊢
            omega
          · cases h
        next heq => cases h

theorem bulletMatchLen_le {l : List Char} {n : Nat} (h : bulletMatchLen l = some n) :
    n ≤ l.length := by
  simp only [bulletMatchLen] at h
  split at h
  · cases h
  next m hm =>
    split at h
    · cases h
    · cases h
      have hws : (l.takeWhile isJsSpace).length ≤ l.length :=
        (List.takeWhile_prefix isJsSpace).length_le
      have hr1 : (l.drop (l.takeWhile isJsSpace).length).length =
          l.length - (l.takeWhile isJsSpace).length := List.length_drop _ _
      have hm' : m ≤ (l.drop (l.takeWhile isJsSpace).length).length := markerLen_le hm
      have hws2 : (((l.drop (l.takeWhile isJsSpace).length).drop m).takeWhile isJsSpace).length ≤
          ((l.drop (l.takeWhile isJsSpace).length).drop m).length :=
        (List.takeWhile_prefix isJsSpace).length_le
      have hr2 : ((l.drop (l.takeWhile isJsSpace).length).drop m).length =
          (l.drop (l.takeWhile isJsSpace).length).length - m := List.length_drop _ _
      omega

theorem afterBullet_of_bullet {line : String} (h : isCursorInListLine line = true) :
    ∃ n : Nat, bulletMatchLen line.data = some n ∧
      getInsertPositionAfterBullet line = (n : Int) ∧ n ≤ line.data.length := by
  simp only [isCursorInListLine, Option.isSome_iff_exists] at h
  obtain ⟨n, hn⟩ := h
  exact ⟨n, hn, by simp [getInsertPositionAfterBullet, hn], bulletMatchLen_le hn⟩

theorem afterBullet_nonneg {line : String} (h : isCursorInListLine line = true) :
    0 ≤ getInsertPositionAfterBullet line := by
  obtain ⟨n, -, heq, -⟩ := afterBullet_of_bullet h
  rw [heq]
  exact Int.natCast_nonneg n

theorem resolver_cases (line : String) (add : Bool) (fmt : List MToken)
    (now : MDateTime) (pred : String → Bool) :
    getInsertPositionInLineFromText line add fmt now pred = -1 ∨
    getInsertPositionInLineFromText line add fmt now pred =
      (if isCursorInListLine line then getInsertPositionAfterBullet line else 0) := by
  simp only [getInsertPositionInLineFromText]
  repeat' split
  all_goals first
    | exact Or.inl rfl
    | exact Or.inr rfl

theorem formatToken_length_const (t t' : MDateTime) (tok : MToken) :
    (formatToken t tok).length = (formatToken t' tok).length := by
  cases tok <;> simp [formatToken, pad2, pad4]

theorem momentFormat_length_const (f : List MToken) (t t' : MDateTime) :
    (momentFormat t f).length = (momentFormat t' f).length := by
  induction f with
  | nil => rfl
  | cons tok ts ih =>
    simp only [momentFormat, List.foldr_cons, List.length_append] at ih ⊢
    have h1 := formatToken_length_const t t' tok
    omega

theorem jsSubstring_append (pre mid post : List Char) :
    jsSubstring (String.mk (pre ++ mid ++ post)) (pre.length : Int)
      ((pre.length : Int) + (mid.length : Int)) = String.mk mid := by
  unfold jsSubstring
  simp only [data_mk, List.length_append]
  have h1 : (max 0 (min (pre.length : Int)
      ((pre.length + mid.length + post.length : Nat) : Int))).toNat = pre.length := by
    omega
  have h2 : (max 0 (min ((pre.length : Int) + (mid.length : Int))
      ((pre.length + mid.length + post.length : Nat) : Int))).toNat =
      pre.length + mid.length := by
    omega
  rw [h1, h2]
  have h3 : min pre.length (pre.length + mid.length) = pre.length := by omega
  have h4 : max pre.length (pre.length + mid.length) = pre.length + mid.length := by omega
  rw [h3, h4, List.append_assoc, List.drop_left]
  have h5 : pre.length + mid.length - pre.length = mid.length := by omega
  rw [h5, List.take_left]

end Tidit

namespace Tidit

/-- C2: for every line matching the task-list pattern the resolver returns
the skip sentinel -1, for both values of the append-to-list-lines flag and
for every format pattern; the task branch fires before the bullet handling
can set a candidate offset. -/
theorem claim2_task_lines_skip (line : String) (add : Bool) (fmt : List MToken)
    (now : MDateTime) (pred : String → Bool)
    (h : isListLineTask line = true) :
    getInsertPositionInLineFromText line add fmt now pred = -1 := by
  simp [getInsertPositionInLineFromText, h]

theorem claim2_witness :
    isListLineTask "- [ ] task" = true ∧
    getInsertPositionInLineFromText "- [ ] task" true defaultTimestampFormat sampleNow
      isCodeBlockStartEnd = -1 ∧
    getInsertPositionInLineFromText "- [ ] task" false defaultTimestampFormat sampleNow
      isCodeBlockStartEnd = -1 :=
  ⟨by decide,
   claim2_task_lines_skip _ _ _ _ _ (by decide),
   claim2_task_lines_skip _ _ _ _ _ (by decide)⟩

/-- C4: for every code-fence boundary line (first character a backtick, or
ending in a triple backtick) the resolver returns the skip sentinel -1,
regardless of bullet/task status, of the append-to-list-lines flag and of
the format pattern. -/
theorem claim4_code_fence_skip (line : String) (add : Bool) (fmt : List MToken)
    (now : MDateTime) (h : isCodeBlockStartEnd line = true) :
    getInsertPositionInLineFromText line add fmt now isCodeBlockStartEnd = -1 := by
  simp [getInsertPositionInLineFromText, h]

theorem claim4_witness :
    isCodeBlockStartEnd "```" = true ∧
    getInsertPositionInLineFromText "```" true defaultTimestampFormat sampleNow
      isCodeBlockStartEnd = -1 ∧
    getInsertPositionInLineFromText "- [ ] x```" false defaultTimestampFormat sampleNow
      isCodeBlockStartEnd = -1 :=
  ⟨by decide,
   claim4_code_fence_skip _ _ _ _ (by decide),
   claim4_code_fence_skip _ _ _ _ (by decide)⟩

/-- C3: bullet lines that are not task lines: with the append-to-list-lines
flag off the resolver returns -1; with it on, the candidate offset used (and
returned when neither the fence check nor duplicate detection fires) is
`getInsertPositionAfterBullet`, the index just after the matched bullet
marker and its following whitespace — 2 for "- item", 3 for "1. item", and 5
for "  3. item" (leading indentation counted). -/
theorem claim3_bullet_handling :
    (∀ (line : String) (fmt : List MToken) (now : MDateTime) (pred : String → Bool),
      isCursorInListLine line = true →
      getInsertPositionInLineFromText line false fmt now pred = -1) ∧
    (∀ (line : String) (fmt : List MToken) (now : MDateTime) (pred : String → Bool),
      isCursorInListLine line = true → isListLineTask line = false →
      pred line = false →
      momentParseStrictValid
        (jsSubstring line (getInsertPositionAfterBullet line)
          (getInsertPositionAfterBullet line + ((momentFormat now fmt).length : Int)))
        fmt = false →
      getInsertPositionInLineFromText line true fmt now pred =
        getInsertPositionAfterBullet line) ∧
    getInsertPositionAfterBullet "- item" = 2 ∧
    getInsertPositionAfterBullet "1. item" = 3 ∧
    getInsertPositionAfterBullet "  3. item" = 5 := by
  refine ⟨?_, ?_, by decide, by decide, by decide⟩
  · intro line fmt now pred hb
    simp [getInsertPositionInLineFromText, hb]
  · intro line fmt now pred hb ht hpred hparse
    simp [getInsertPositionInLineFromText, hb, ht, hpred, hparse]

theorem claim3_witness :
    getInsertPositionInLineFromText "- item" false defaultTimestampFormat sampleNow
      isCodeBlockStartEnd = -1 ∧
    getInsertPositionInLineFromText "- item" true defaultTimestampFormat sampleNow
      isCodeBlockStartEnd = getInsertPositionAfterBullet "- item" ∧
    getInsertPositionInLineFromText "  3. item" true defaultTimestampFormat sampleNow
      isCodeBlockStartEnd = getInsertPositionAfterBullet "  3. item" :=
  ⟨claim3_bullet_handling.1 _ _ _ _ (by decide),
   claim3_bullet_handling.2.1 _ _ _ _ (by decide) (by decide) (by decide) (by decide),
   claim3_bullet_handling.2.1 _ _ _ _ (by decide) (by decide) (by decide) (by decide)⟩

end Tidit

namespace Tidit

/-- C5: duplicate detection — on a line where no earlier step fired (not a
task line, bullet only with the flag on, not a code fence), the resolver
returns -1 exactly when the substring starting at the candidate offset, of
the length of a formatted timestamp, strict-parses as a valid timestamp
under the exact configured pattern. -/
theorem claim5_duplicate_detection (line : String) (add : Bool) (fmt : List MToken)
    (now : MDateTime)
    (h1 : isListLineTask line = false)
    (h2 : isCursorInListLine line = true → add = true)
    (h3 : isCodeBlockStartEnd line = false) :
    (getInsertPositionInLineFromText line add fmt now isCodeBlockStartEnd = -1 ↔
      momentParseStrictValid
        (jsSubstring line
          (if isCursorInListLine line then getInsertPositionAfterBullet line else 0)
          ((if isCursorInListLine line then getInsertPositionAfterBullet line else 0) +
            ((momentFormat now fmt).length : Int))) fmt = true) := by
  have hguard : (isCursorInListLine line && !add) = false := by
    cases hb : isCursorInListLine line
    · simp
    · simp [h2 hb]
  by_cases hp : momentParseStrictValid
      (jsSubstring line
        (if isCursorInListLine line then getInsertPositionAfterBullet line else 0)
        ((if isCursorInListLine line then getInsertPositionAfterBullet line else 0) +
          ((momentFormat now fmt).length : Int))) fmt = true
  · simp [getInsertPositionInLineFromText, h1, hguard, h3, hp]
  · have hcand : (0 : Int) ≤
        (if isCursorInListLine line then getInsertPositionAfterBullet line else 0) := by
      cases hb : isCursorInListLine line
      · simp
      · simp [afterBullet_nonneg hb]
    simp [getInsertPositionInLineFromText, h1, hguard, h3, hp]
    omega

theorem claim5_witness :
    getInsertPositionInLineFromText "2025-08-31 12:00:00+00:00 something" false
      defaultTimestampFormat sampleNow isCodeBlockStartEnd = -1 :=
  (claim5_duplicate_detection _ _ _ _ (by decide) (by decide) (by decide)).mpr (by decide)

/-- C6: a plain line — neither bullet, task, code fence, nor starting with a
valid timestamp under the configured pattern — resolves to offset 0, for
both values of the append-to-list-lines flag. -/
theorem claim6_plain_lines (line : String) (add : Bool) (fmt : List MToken)
    (now : MDateTime)
    (h1 : isCursorInListLine line = false)
    (h2 : isListLineTask line = false)
    (h3 : isCodeBlockStartEnd line = false)
    (h4 : momentParseStrictValid
        (jsSubstring line 0 ((momentFormat now fmt).length : Int)) fmt = false) :
    getInsertPositionInLineFromText line add fmt now isCodeBlockStartEnd = 0 := by
  simp [getInsertPositionInLineFromText, h1, h2, h3, h4]

theorem claim6_witness :
    getInsertPositionInLineFromText "plain text" true defaultTimestampFormat sampleNow
      isCodeBlockStartEnd = 0 ∧
    getInsertPositionInLineFromText "plain text" false defaultTimestampFormat sampleNow
      isCodeBlockStartEnd = 0 :=
  ⟨claim6_plain_lines _ _ _ _ (by decide) (by decide) (by decide) (by decide),
   claim6_plain_lines _ _ _ _ (by decide) (by decide) (by decide) (by decide)⟩

/-- C7: the resolver never propagates a parse failure: the modelled moment
parse is total (as the library, which returns an invalid moment rather than
throwing, even for garbage patterns), and whenever the strict parse of the
substring does not validate — which is what an invalid or unparseable
pattern produces — the resolver proceeds to return the candidate offset, so
the system degrades to inserting a timestamp. -/
theorem claim7_unparseable_format_degrades (line : String) (add : Bool)
    (fmt : List MToken) (now : MDateTime)
    (h1 : isListLineTask line = false)
    (h2 : isCursorInListLine line = true → add = true)
    (h3 : isCodeBlockStartEnd line = false)
    (h4 : momentParseStrictValid
        (jsSubstring line
          (if isCursorInListLine line then getInsertPositionAfterBullet line else 0)
          ((if isCursorInListLine line then getInsertPositionAfterBullet line else 0) +
            ((momentFormat now fmt).length : Int))) fmt = false) :
    getInsertPositionInLineFromText line add fmt now isCodeBlockStartEnd =
      (if isCursorInListLine line then getInsertPositionAfterBullet line else 0) := by
  have hguard : (isCursorInListLine line && !add) = false := by
    cases hb : isCursorInListLine line
    · simp
    · simp [h2 hb]
  simp [getInsertPositionInLineFromText, h1, hguard, h3, h4]

theorem claim7_witness :
    getInsertPositionInLineFromText "plain" true [MToken.lit "!!"] sampleNow
      isCodeBlockStartEnd = 0 ∧
    getInsertPositionInLineFromText "- item" true [MToken.lit "!!"] sampleNow
      isCodeBlockStartEnd = 2 := by
  constructor
  · have h := claim7_unparseable_format_degrades "plain" true [MToken.lit "!!"] sampleNow
      (by decide) (by decide) (by decide) (by decide)
    simpa using h
  · have h := claim7_unparseable_format_degrades "- item" true [MToken.lit "!!"] sampleNow
      (by decide) (by decide) (by decide) (by decide)
    simpa using h

end Tidit

namespace Tidit

/-- C8 (code evaluation): the delay handler computes
`Math.max(Math.min(parseInt(value), 1234))` — a one-argument `Math.max`, so
input "-5" stores -5 (no lower clamp to 0) and non-numeric input "abc"
stores NaN instead of retaining the previous delay; an in-range and an
oversized input behave as described, and the timezone-offset handler does
retain the previous value on non-numeric input. -/
theorem claim8_code_behavior :
    addAfterDelayOnChange "-5" (some 60) = some (-5) ∧
    addAfterDelayOnChange "abc" (some 60) = none ∧
    addAfterDelayOnChange "99999" (some 60) = some 1234 ∧
    addAfterDelayOnChange "30" (some 60) = some 30 ∧
    timezoneOffsetOnChange "abc" 7 = 7 ∧
    timezoneOffsetOnChange "-300" 7 = -300 :=
  ⟨by decide, by decide, by decide, by decide, by decide, by decide⟩

/-- C9: the rate guard lets an insertion attempt proceed exactly when the
elapsed whole seconds since the last successful insertion is at least the
configured delay, and with delay 0 it passes on every trigger (elapsed
seconds are never negative when the last instant is not in the future). -/
theorem claim9_rate_guard (nowMs lastMs delaySeconds : Int)
    (h : 0 ≤ nowMs - lastMs) :
    (rateGuardProceeds nowMs lastMs delaySeconds = true ↔
      delaySeconds ≤ diffSeconds nowMs lastMs) ∧
    (delaySeconds = 0 → rateGuardProceeds nowMs lastMs delaySeconds = true) := by
  have hiff : rateGuardProceeds nowMs lastMs delaySeconds = true ↔
      ¬ (diffSeconds nowMs lastMs < delaySeconds) := by
    unfold rateGuardProceeds
    split
    · simp [*]
    · simp [*]
  have hnn : 0 ≤ diffSeconds nowMs lastMs := by
    unfold diffSeconds
    exact Int.tdiv_nonneg h (by norm_num)
  constructor
  · rw [hiff, not_lt]
  · intro hd
    rw [hiff, hd, not_lt]
    exact hnn

theorem claim9_witness :
    rateGuardProceeds 5000 0 0 = true ∧
    rateGuardProceeds 5000 0 5 = true ∧
    rateGuardProceeds 5000 0 6 = false :=
  ⟨(claim9_rate_guard 5000 0 0 (by decide)).2 rfl,
   (claim9_rate_guard 5000 0 5 (by decide)).1.mpr (by decide),
   by
    have h := (claim9_rate_guard 5000 0 6 (by decide)).1
    revert h
    decide⟩

/-- C10: the resolver's result is always either the skip sentinel -1 or an
offset p with 0 ≤ p ≤ length of the line, for every line, flag, format
pattern and fence predicate; and on bullet lines
`getInsertPositionAfterBullet` never yields -1, so the sentinel stays
distinct from every candidate offset the bullet branch can surface. -/
theorem claim10_result_invariant (line : String) (add : Bool) (fmt : List MToken)
    (now : MDateTime) (pred : String → Bool) :
    (getInsertPositionInLineFromText line add fmt now pred = -1 ∨
      (0 ≤ getInsertPositionInLineFromText line add fmt now pred ∧
        getInsertPositionInLineFromText line add fmt now pred ≤
          (line.data.length : Int))) ∧
    (isCursorInListLine line = true → 0 ≤ getInsertPositionAfterBullet line) := by
  constructor
  · rcases resolver_cases line add fmt now pred with h | h
    · exact Or.inl h
    · right
      rw [h]
      cases hb : isCursorInListLine line
      · simp
      · obtain ⟨n, -, heq, hle⟩ := afterBullet_of_bullet hb
        simp only [if_pos, heq]
        constructor
        · exact Int.natCast_nonneg n
        · exact_mod_cast hle
  · intro hb
    exact afterBullet_nonneg hb

theorem claim10_witness :
    (0 : Int) ≤ getInsertPositionAfterBullet "- item" ∧
    (getInsertPositionInLineFromText "- item" true defaultTimestampFormat sampleNow
        isCodeBlockStartEnd = -1 ∨
      (0 ≤ getInsertPositionInLineFromText "- item" true defaultTimestampFormat sampleNow
          isCodeBlockStartEnd ∧
        getInsertPositionInLineFromText "- item" true defaultTimestampFormat sampleNow
          isCodeBlockStartEnd ≤ (("- item" : String).data.length : Int))) :=
  ⟨(claim10_result_invariant "- item" true defaultTimestampFormat sampleNow
      isCodeBlockStartEnd).2 (by decide),
   (claim10_result_invariant "- item" true defaultTimestampFormat sampleNow
      isCodeBlockStartEnd).1⟩

end Tidit

namespace Tidit

/-- C1 (counterexample): idempotence fails for the moment pattern
`"[- foo]"` (a single bracketed literal, formatting to "- foo" at every
instant).  On the plain line "item" the resolver returns 0; inserting the
formatted timestamp with its space suffix produces "- foo item", which now
matches the bullet regex, so re-running the resolver with the same
arguments returns the post-bullet candidate 2, not the skip sentinel -1. -/
theorem claim1_counterexample :
    getInsertPositionInLineFromText "item" true [MToken.lit "- foo"] sampleNow
      isCodeBlockStartEnd = 0 ∧
    insertAt "item" 0 (getFormattedTimestamp sampleNow [MToken.lit "- foo"] false) =
      "- foo item" ∧
    getInsertPositionInLineFromText "- foo item" true [MToken.lit "- foo"] sampleNow
      isCodeBlockStartEnd = 2 :=
  ⟨by decide, by decide, by decide⟩

/-- C1 (amended): idempotence of the resolver holds whenever the inserted
timestamp does not disturb the line's classification: if the resolver
returns a non-negative offset p on line L, the formatted timestamp
round-trips through the strict parser, and on the line L' obtained by
inserting the formatted timestamp (with its configured suffix) at p the
bullet classification yields the same candidate offset p (p = 0 when L' is
not a bullet line), then re-running the resolver on L' with the same
arguments returns the skip sentinel -1. -/
theorem claim1_idempotence_amended (L : String) (add : Bool) (fmt : List MToken)
    (now now2 : MDateTime) (nl : Bool) (p : Int) (L' : String)
    (h1 : getInsertPositionInLineFromText L add fmt now isCodeBlockStartEnd = p)
    (hp : 0 ≤ p)
    (hL' : L' = insertAt L p.toNat (getFormattedTimestamp now fmt nl))
    (hRT : momentParseStrictValid (String.mk (momentFormat now fmt)) fmt = true)
    (hb1 : isCursorInListLine L' = true → add = true →
      getInsertPositionAfterBullet L' = p)
    (hb2 : isCursorInListLine L' = false → p = 0) :
    getInsertPositionInLineFromText L' add fmt now2 isCodeBlockStartEnd = -1 := by
  have hple : p.toNat ≤ L.data.length := by
    rcases resolver_cases L add fmt now isCodeBlockStartEnd with hc | hc
    · rw [h1] at hc
      omega
    · rw [h1] at hc
      by_cases hb : isCursorInListLine L = true
      · obtain ⟨n, -, heq, hle⟩ := afterBullet_of_bullet hb
        rw [if_pos hb, heq] at hc
        omega
      · rw [if_neg hb] at hc
        omega
  have hL'2 : L' = String.mk (L.data.take p.toNat ++ momentFormat now fmt ++
      ((if nl then ['\n'] else [' ']) ++ L.data.drop p.toNat)) := by
    rw [hL']
    unfold insertAt getFormattedTimestamp
    simp [data_mk, List.append_assoc]
  have hsub : jsSubstring L' p (p + ((momentFormat now2 fmt).length : Int)) =
      String.mk (momentFormat now fmt) := by
    rw [hL'2]
    have hlen : ((momentFormat now2 fmt).length : Int) =
        ((momentFormat now fmt).length : Int) := by
      exact_mod_cast momentFormat_length_const fmt now2 now
    rw [hlen]
    have hpint : p = (p.toNat : Int) := (Int.toNat_of_nonneg hp).symm
    rw [hpint]
    have hpre : (L.data.take p.toNat).length = p.toNat := by
      rw [List.length_take]
      omega
    have happ := jsSubstring_append (L.data.take p.toNat) (momentFormat now fmt)
      ((if nl then ['\n'] else [' ']) ++ L.data.drop p.toNat)
    rw [hpre] at happ
    exact happ
  cases hguard : (isCursorInListLine L' && !add) with
  | true => simp [getInsertPositionInLineFromText, hguard]
  | false =>
    have hcand : (if isCursorInListLine L' then getInsertPositionAfterBullet L' else 0) =
        p := by
      cases hb : isCursorInListLine L'
      · simp [hb2 hb]
      · rw [hb] at hguard
        simp only [Bool.true_and] at hguard
        have hadd : add = true := by
          cases hadd : add
          · rw [hadd] at hguard
            cases hguard
          · rfl
        simp [hb1 hb hadd]
    simp [getInsertPositionInLineFromText, hguard, hcand, hsub, hRT]

theorem claim1_witness :
    getInsertPositionInLineFromText "- 2025-08-31 12:00:00+00:00 item" true
      defaultTimestampFormat sampleNow isCodeBlockStartEnd = -1 :=
  claim1_idempotence_amended "- item" true defaultTimestampFormat sampleNow sampleNow
    false 2 "- 2025-08-31 12:00:00+00:00 item"
    (by decide) (by decide) (by decide) (by decide) (by decide) (by decide)

end Tidit
